import Mathlib

/-!
Verification development for the obsidian-git-sync repository.

The repository consists of a small CORS/auth-forwarding HTTP proxy
(proxy/proxyServer.js), two generations of a Git sync engine
(src/gitManager.ts: an isomorphic-git based `GitManager` followed by a
simple-git based `GitManager`), a logging singleton (src/logger.ts) and the
plugin entry point (main.ts).  The definitions below are shallow embeddings
of those source functions; each doc comment names the function and lines it
transcribes.
-/

namespace GitSync

/- ### Substring machinery over lists of characters

JavaScript string operations used by the sources (`String.replace` with a
string pattern, substring containment) are modelled over `List Char`. -/

/-- True when `pat` occurs as a contiguous substring of the list. -/
def containsSub (pat : List Char) : List Char → Bool
  | [] => pat.isEmpty
  | c :: cs => pat.isPrefixOf (c :: cs) || containsSub pat cs

/-- Number of positions at which `pat` occurs as a contiguous substring. -/
def countSub (pat : List Char) : List Char → Nat
  | [] => 0
  | c :: cs => (if pat.isPrefixOf (c :: cs) then 1 else 0) + countSub pat cs

/-- Replace the first occurrence of `pat` by `rep`, leaving the list unchanged
when `pat` does not occur.  This is JavaScript `String.replace` with a plain
string pattern (which replaces only the first match).  Dollar substitution
patterns in the replacement string are not modelled; theorems quantifying over
replacement strings carry a corresponding side condition. -/
def repFirst (pat rep : List Char) : List Char → List Char
  | [] => if pat.isEmpty then rep else []
  | c :: cs =>
    if pat.isPrefixOf (c :: cs) then rep ++ (c :: cs).drop pat.length
    else c :: repFirst pat rep cs

/-- Split a list at the first occurrence of `pat`, dropping the occurrence. -/
def splitAtSub (pat : List Char) : List Char → Option (List Char × List Char)
  | [] => if pat.isEmpty then some ([], []) else none
  | c :: cs =>
    if pat.isPrefixOf (c :: cs) then some ([], (c :: cs).drop pat.length)
    else
      match splitAtSub pat cs with
      | some (a, b) => some (c :: a, b)
      | none => none

/-- String wrapper for `repFirst`: JavaScript `s.replace(pat, rep)` with a
string pattern. -/
def jsReplaceOnce (s pat rep : String) : String :=
  String.mk (repFirst pat.data rep.data s.data)

/-- String wrapper for `containsSub`: does `s` contain `pat`? -/
def strContains (s pat : String) : Bool :=
  containsSub pat.data s.data

/- ### UTF-8 and base64 (Node `Buffer.from(str).toString('base64')`) -/

/-- UTF-8 encoding of a single code point. -/
def utf8EncodeCp (n : Nat) : List Nat :=
  if n < 0x80 then [n]
  else if n < 0x800 then [0xC0 + n / 64, 0x80 + n % 64]
  else if n < 0x10000 then [0xE0 + n / 4096, 0x80 + n / 64 % 64, 0x80 + n % 64]
  else [0xF0 + n / 262144, 0x80 + n / 4096 % 64, 0x80 + n / 64 % 64, 0x80 + n % 64]

/-- UTF-8 bytes of a string. -/
def utf8Bytes (s : String) : List Nat :=
  s.data.foldr (fun c acc => utf8EncodeCp c.toNat ++ acc) []

/-- The standard base64 alphabet. -/
def base64Alphabet : List Char :=
  "ABCDEFGHIJKLMNOPQRSTUVWXYZabcdefghijklmnopqrstuvwxyz0123456789+/".data

/-- Character for a 6-bit group. -/
def b64Char (n : Nat) : Char := base64Alphabet.getD n 'A'

/-- Base64 encoding of a byte list, with `=` padding. -/
def base64Chunks : List Nat → List Char
  | [] => []
  | [a] => [b64Char (a / 4), b64Char (a % 4 * 16), '=', '=']
  | [a, b] => [b64Char (a / 4), b64Char (a % 4 * 16 + b / 16), b64Char (b % 16 * 4), '=']
  | a :: b :: c :: rest =>
    [b64Char (a / 4), b64Char (a % 4 * 16 + b / 16), b64Char (b % 16 * 4 + c / 64),
     b64Char (c % 64)] ++ base64Chunks rest

/-- Node `Buffer.from(s).toString('base64')`: base64 of the UTF-8 bytes. -/
def base64OfString (s : String) : String :=
  String.mk (base64Chunks (utf8Bytes s))

/- ### URL parsing (model of the WHATWG `new URL(...)` constructor)

The proxy and the engines only deal with absolute `scheme://...` URLs without
userinfo; the model parses exactly those (scheme, host up to the first `/` or
`?`, pathname defaulting to `/`, search, fragment stripped).  Inputs without a
`scheme://` part make the constructor throw, which the model renders as
`none`.  WHATWG case/port normalization is not modelled; no claim depends on
it. -/

structure ParsedUrl where
  protocol : String
  host : String
  pathname : String
  search : String
deriving DecidableEq, Repr

/-- Characters allowed in a URL scheme. -/
def isSchemeChar (c : Char) : Bool :=
  c.isAlpha || c.isDigit || c = '+' || c = '-' || c = '.'

/-- Model of `new URL(s)` for absolute URLs, `none` when the constructor
would throw. -/
def parseUrl (s : String) : Option ParsedUrl :=
  match splitAtSub "://".data s.data with
  | none => none
  | some (scheme, rest) =>
    if scheme.isEmpty || !(scheme.all isSchemeChar) then none
    else
      let noFrag := rest.takeWhile (fun c => c ≠ '#')
      let hostCs := noFrag.takeWhile (fun c => !(c = '/' || c = '?'))
      if hostCs.isEmpty then none
      else
        let afterHost := noFrag.drop hostCs.length
        let pathCs := afterHost.takeWhile (fun c => c ≠ '?')
        let searchCs := afterHost.drop pathCs.length
        some { protocol := String.mk scheme ++ ":"
               host := String.mk hostCs
               pathname := if pathCs.isEmpty then "/" else String.mk pathCs
               search := String.mk searchCs }

/- ### Transport proxy (proxy/proxyServer.js) -/

/-- An inbound request to the `/proxy` endpoint: method, the `url` query
parameter (absent when the caller did not supply one) and the request
headers.  Node lowercases incoming header names, so keys are lowercase. -/
structure ProxyReq where
  method : String
  urlParam : Option String
  headers : List (String × String)
deriving DecidableEq, Repr

/-- The outbound request the proxy middleware builds: routing target
(scheme + host from `router`), rewritten path (pathname + search from
`pathRewrite`) and outgoing headers. -/
structure UpstreamRequest where
  target : String
  path : String
  headers : List (String × String)
  method : String
deriving DecidableEq, Repr

/-- An HTTP response (status and body). -/
structure HttpResponse where
  status : Nat
  body : String
deriving DecidableEq, Repr

/-- Header lookup by exact name. -/
def lookupHeader (name : String) (hs : List (String × String)) : Option String :=
  hs.lookup name

/-- Node `setHeader`: replaces any existing header of that name. -/
def setHeader (name value : String) (hs : List (String × String)) :
    List (String × String) :=
  (name, value) :: hs.filter (fun p => p.1 ≠ name)

/-- JavaScript truthiness of a header value: absent or empty is falsy. -/
def headerTruthy (v : Option String) : Bool :=
  match v with
  | some s => !(s == "")
  | none => false

/-- `onProxyReq` (proxyServer.js lines 63-81): when both credential headers
are truthy, synthesize `Authorization: Basic base64(username:password)`;
otherwise leave the headers untouched. -/
def onProxyReqHeaders (hs : List (String × String)) : List (String × String) :=
  if headerTruthy (lookupHeader "x-git-username" hs) &&
     headerTruthy (lookupHeader "x-git-password" hs) then
    setHeader "authorization"
      ("Basic " ++ base64OfString
        (((lookupHeader "x-git-username" hs).getD "") ++ ":" ++
         ((lookupHeader "x-git-password" hs).getD ""))) hs
  else hs

/-- The upstream request built from an inbound `/proxy` request: `router`
(lines 56-62) picks `protocol//host` of the parsed `url` query parameter,
`pathRewrite` (lines 50-55) replaces the path by the target pathname +
search, and `onProxyReq` adjusts the headers.  `none` when the `url` query
parameter is absent or `new URL` throws on it. -/
def proxyBuildUpstream (r : ProxyReq) : Option UpstreamRequest :=
  match r.urlParam with
  | none => none
  | some u =>
    match parseUrl u with
    | none => none
    | some t =>
      some { target := t.protocol ++ "//" ++ t.host
             path := t.pathname ++ t.search
             headers := onProxyReqHeaders r.headers
             method := r.method }

/-- Full round trip through the proxy: when the target URL cannot be built
the server's error handling (`onError`, lines 87-94, `res.writeHead(500)`)
answers status 500 with a plain-text proxy error; otherwise the upstream
response is relayed unchanged (`onProxyRes`, lines 82-86, only logs). -/
def proxyRoundTrip (r : ProxyReq) (upstream : UpstreamRequest → HttpResponse) :
    HttpResponse :=
  match proxyBuildUpstream r with
  | none => { status := 500, body := "Proxy error: Invalid URL" }
  | some ur => upstream ur

/- ### Credentials and HTTP clients (src/gitManager.ts) -/

/-- Commit author identity. -/
structure Author where
  name : String
  email : String
deriving DecidableEq, Repr

/-- `GitCredentials` (gitManager.ts lines 42-49). -/
structure GitCredentials where
  username : String
  password : String
  author : Author
deriving DecidableEq, Repr

/-- A request config handed to an isomorphic-git HTTP client. -/
structure HttpConfig where
  url : String
  method : String
  headers : List (String × String)
deriving DecidableEq, Repr

/-- The request a client actually sends. -/
structure OutboundRequest where
  url : String
  method : String
  headers : List (String × String)
deriving DecidableEq, Repr

/-- `GitHttpClient.PROXY_URL` (gitManager.ts line 7). -/
def proxyUrlPrefix : String := "http://localhost:3001/proxy?url="

/-- Hex digit for a value below 16. -/
def hexDigit (n : Nat) : Char := "0123456789ABCDEF".data.getD n '0'

/-- Percent-encoding of one byte. -/
def percentByte (b : Nat) : List Char := ['%', hexDigit (b / 16), hexDigit (b % 16)]

/-- Characters `encodeURIComponent` leaves unescaped. -/
def uriUnreserved (c : Char) : Bool :=
  c.isAlphanum || c ∈ ['-', '_', '.', '!', '~', '*', Char.ofNat 39, '(', ')']

/-- JavaScript `encodeURIComponent`: unreserved characters kept, every other
character replaced by the percent-encoding of its UTF-8 bytes. -/
def encodeURIComponent (s : String) : String :=
  String.mk (s.data.foldr
    (fun c acc =>
      (if uriUnreserved c then [c]
       else (utf8EncodeCp c.toNat).foldr (fun b a => percentByte b ++ a) []) ++ acc)
    [])

/-- `GitHttpClient.request` (gitManager.ts lines 13-37): the outbound URL is
the proxy endpoint with the true target percent-encoded into the `url` query
parameter, and the credentials ride in the custom `X-Git-*` headers (the
object spread lets the three added headers override same-named incoming
ones). -/
def gitHttpClientRequest (creds : GitCredentials) (config : HttpConfig) :
    OutboundRequest :=
  { url := proxyUrlPrefix ++ encodeURIComponent config.url
    method := config.method
    headers :=
      setHeader "X-Git-Password" creds.password
        (setHeader "X-Git-Username" creds.username
          (setHeader "X-Requested-With" "obsidian-git-sync" config.headers)) }

/-- The bare `isomorphic-git/http/web` client used by `pull` (line 138): it
sends the engine's config unchanged, adding nothing. -/
def directHttpRequest (config : HttpConfig) : OutboundRequest :=
  { url := config.url, method := config.method, headers := config.headers }

/-- Which HTTP client an isomorphic-git call receives. -/
inductive HttpClientKind
  | proxied
  | direct
deriving DecidableEq, Repr

/-- `git.clone` (gitManager.ts line 87) receives `new GitHttpClient(...)`. -/
def cloneHttpClient : HttpClientKind := .proxied

/-- `git.pull` (gitManager.ts line 138) receives the bare `http` import. -/
def pullHttpClient : HttpClientKind := .direct

/-- `git.push` (gitManager.ts line 241) receives `new GitHttpClient(...)`. -/
def pushHttpClient : HttpClientKind := .proxied

/-- The request a client of the given kind sends for a config. -/
def clientRequest (k : HttpClientKind) (creds : GitCredentials)
    (config : HttpConfig) : OutboundRequest :=
  match k with
  | .proxied => gitHttpClientRequest creds config
  | .direct => directHttpRequest config

/- ### Simple-git engine URL handling (gitManager.ts lines 396-449) -/

/-- `repoUrl.replace('https://', 'https://user:password@')` as used by the
simple-git engine's `initializeRepo` (lines 407-408) and `testConnection`
(line 438). -/
def remoteWithAuth (repoUrl username password : String) : String :=
  jsReplaceOnce repoUrl "https://" ("https://" ++ username ++ ":" ++ password ++ "@")

/-- The log lines `testConnection` (gitManager.ts lines 436-449) emits on its
success path: a debug line before `listRemote` and an info line after. -/
def testConnectionLogs (repoUrl username password : String) : List String :=
  ["Testing remote connection to " ++ remoteWithAuth repoUrl username password,
   "Connection to " ++ remoteWithAuth repoUrl username password ++ " successful"]

/- ### Commit author fallback (gitManager.ts lines 211-219) -/

/-- JavaScript `x || d` on strings: the empty string is falsy. -/
def jsOrDefault (x d : String) : String := if x = "" then d else x

/-- The author identity `GitManager.commit` (isomorphic-git engine) passes to
`git.commit`: configured name/email with per-field fallbacks. -/
def commitAuthor (a : Author) : Author :=
  { name := jsOrDefault a.name "Obsidian Git Sync"
    email := jsOrDefault a.email "obsidian@example.com" }

/- ### Commit message template (main.ts, GitSyncPlugin.syncVault lines 117-121) -/

/-- `autoCommitMessage.replace('{{date}}', new Date().toLocaleString())`:
JavaScript `String.replace` with a string pattern, so only the first
occurrence of the placeholder is substituted. -/
def formatCommitMessage (template ts : String) : String :=
  jsReplaceOnce template "\x7b\x7bdate\x7d\x7d" ts

/- ### Sync engines as step machines

Both `sync` methods are sequences of awaited calls whose failures abort the
remainder (each helper rethrows from its catch block; no helper undoes
earlier work).  The model makes the outcome of each underlying git-library
call an explicit environment field, threads an abstract repository state
through the steps, and records which steps completed. -/

/-- The steps named by the spec's pipeline. -/
inductive Step
  | initRepo
  | pull
  | diff
  | stage
  | commit
  | push
deriving DecidableEq, Repr

/-- Errors of the modelled git-library calls. -/
inductive GitError
  | cloneFailed
  | pullFailed
  | addFailed
  | commitFailed
  | pushFailed
  | nothingToCommit
deriving DecidableEq, Repr

/-- Abstract repository state: whether a repository exists, how many pulls,
commits and pushes completed, and what is staged. -/
structure RepoState where
  hasRepo : Bool
  pulls : Nat
  staged : List String
  commits : Nat
  pushes : Nat
deriving DecidableEq, Repr

/-- One row of `git.statusMatrix`: filepath and HEAD/WORKDIR/STAGE status. -/
structure StatusRow where
  filepath : String
  head : Nat
  workdir : Nat
  stage : Nat
deriving DecidableEq, Repr

/-- Environment of one isomorphic-git sync call: success of each library
call and the status matrix the diff step observes. -/
structure GitEnv where
  cloneOk : Bool
  pullOk : Bool
  statusMatrix : List StatusRow
  addOk : Bool
  commitOk : Bool
  pushOk : Bool
deriving DecidableEq, Repr

/-- `GitManager.getChangedFiles` (isomorphic-git engine, lines 186-201):
rows whose HEAD status differs from the workdir or stage status. -/
def getChangedFiles (env : GitEnv) : List String :=
  (env.statusMatrix.filter
    (fun row => row.head != row.workdir || row.head != row.stage)).map
    (fun row => row.filepath)

/-- `GitManager.initializeRepo` (isomorphic-git engine, lines 74-115): a
no-op success when a repository exists, otherwise a shallow single-branch
clone that may fail. -/
def initializeRepo (env : GitEnv) (s : RepoState) : Except GitError RepoState :=
  if s.hasRepo then .ok s
  else if env.cloneOk then .ok { s with hasRepo := true }
  else .error .cloneFailed

/-- `GitManager.pull` (isomorphic-git engine, lines 132-154). -/
def pullOp (env : GitEnv) (s : RepoState) : Except GitError RepoState :=
  if env.pullOk then .ok { s with pulls := s.pulls + 1 } else .error .pullFailed

/-- `GitManager.addAll` (isomorphic-git engine, lines 159-181): stages every
changed file reported by the status matrix. -/
def addAllOp (env : GitEnv) (s : RepoState) : Except GitError RepoState :=
  if env.addOk then .ok { s with staged := getChangedFiles env }
  else .error .addFailed

/-- `GitManager.commit` (isomorphic-git engine, lines 206-229). -/
def commitOp (env : GitEnv) (s : RepoState) : Except GitError RepoState :=
  if env.commitOk then .ok { s with commits := s.commits + 1 }
  else .error .commitFailed

/-- `GitManager.push` (isomorphic-git engine, lines 234-261). -/
def pushOp (env : GitEnv) (s : RepoState) : Except GitError RepoState :=
  if env.pushOk then .ok { s with pushes := s.pushes + 1 } else .error .pushFailed

/-- Outcome of a sync call. -/
inductive SyncOutcome
  | filesUpdated (n : Nat)
  | noChanges
  | finished
  | failed (e : GitError)
deriving DecidableEq, Repr

/-- Result of a sync call: final state, the steps that completed in order,
and the reported outcome. -/
structure SyncRun where
  state : RepoState
  completed : List Step
  outcome : SyncOutcome
deriving DecidableEq, Repr

/-- `GitManager.sync` (isomorphic-git engine, lines 312-353): initialize,
pull, compute changed files; when some exist, stage, commit, push and report
the file count; when none exist, report no changes without staging or
committing.  Any failure aborts the remaining steps and the catch block
rethrows without undoing completed ones. -/
def syncIso (env : GitEnv) (s0 : RepoState) : SyncRun :=
  match initializeRepo env s0 with
  | .error e => ⟨s0, [], .failed e⟩
  | .ok s1 =>
    match pullOp env s1 with
    | .error e => ⟨s1, [.initRepo], .failed e⟩
    | .ok s2 =>
      let changed := getChangedFiles env
      if changed.length > 0 then
        match addAllOp env s2 with
        | .error e => ⟨s2, [.initRepo, .pull, .diff], .failed e⟩
        | .ok s3 =>
          match commitOp env s3 with
          | .error e => ⟨s3, [.initRepo, .pull, .diff, .stage], .failed e⟩
          | .ok s4 =>
            match pushOp env s4 with
            | .error e => ⟨s4, [.initRepo, .pull, .diff, .stage, .commit], .failed e⟩
            | .ok s5 =>
              ⟨s5, [.initRepo, .pull, .diff, .stage, .commit, .push],
               .filesUpdated changed.length⟩
      else ⟨s2, [.initRepo, .pull, .diff], .noChanges⟩

/-- Environment of one simple-git sync call: success of each git invocation
and the set of working-tree paths that differ from HEAD (what `git add .`
would stage). -/
structure SimpleEnv where
  cloneOk : Bool
  pullOk : Bool
  addOk : Bool
  commitOk : Bool
  pushOk : Bool
  workingChanged : List String
deriving DecidableEq, Repr

/-- `GitManager.initializeRepo` (simple-git engine, lines 396-434). -/
def initializeRepoSimple (env : SimpleEnv) (s : RepoState) :
    Except GitError RepoState :=
  if s.hasRepo then .ok s
  else if env.cloneOk then .ok { s with hasRepo := true }
  else .error .cloneFailed

/-- `GitManager.pull` (simple-git engine, lines 467-479). -/
def pullSimple (env : SimpleEnv) (s : RepoState) : Except GitError RepoState :=
  if env.pullOk then .ok { s with pulls := s.pulls + 1 } else .error .pullFailed

/-- `GitManager.addAll` (simple-git engine, lines 484-494): `git add .`
stages every changed working-tree path. -/
def addAllSimple (env : SimpleEnv) (s : RepoState) : Except GitError RepoState :=
  if env.addOk then .ok { s with staged := env.workingChanged }
  else .error .addFailed

/-- `GitManager.commit` (simple-git engine, lines 541-551): runs
`git commit -m msg` without `--allow-empty`, so git refuses the commit when
nothing is staged ("nothing to commit") and the call throws. -/
def commitSimple (env : SimpleEnv) (s : RepoState) : Except GitError RepoState :=
  if s.staged.isEmpty then .error .nothingToCommit
  else if env.commitOk then .ok { s with commits := s.commits + 1 }
  else .error .commitFailed

/-- `GitManager.push` (simple-git engine, lines 556-566). -/
def pushSimple (env : SimpleEnv) (s : RepoState) : Except GitError RepoState :=
  if env.pushOk then .ok { s with pushes := s.pushes + 1 } else .error .pushFailed

/-- `GitManager.sync` (simple-git engine, lines 571-589): initialize, pull,
then unconditionally add, commit and push — there is no diff step and no
empty-changeset short circuit. -/
def syncSimple (env : SimpleEnv) (s0 : RepoState) : SyncRun :=
  match initializeRepoSimple env s0 with
  | .error e => ⟨s0, [], .failed e⟩
  | .ok s1 =>
    match pullSimple env s1 with
    | .error e => ⟨s1, [.initRepo], .failed e⟩
    | .ok s2 =>
      match addAllSimple env s2 with
      | .error e => ⟨s2, [.initRepo, .pull], .failed e⟩
      | .ok s3 =>
        match commitSimple env s3 with
        | .error e => ⟨s3, [.initRepo, .pull, .stage], .failed e⟩
        | .ok s4 =>
          match pushSimple env s4 with
          | .error e => ⟨s4, [.initRepo, .pull, .stage, .commit], .failed e⟩
          | .ok s5 => ⟨s5, [.initRepo, .pull, .stage, .commit, .push], .finished⟩

/-- The step order of the isomorphic-git sync pipeline. -/
def stepOrderIso : List Step := [.initRepo, .pull, .diff, .stage, .commit, .push]

/-- The step order of the simple-git sync pipeline (no diff step). -/
def stepOrderSimple : List Step := [.initRepo, .pull, .stage, .commit, .push]

/-- State effect of one completed step of the isomorphic-git pipeline. -/
def stepEffectIso (env : GitEnv) (st : Step) (s : RepoState) : RepoState :=
  match st with
  | .initRepo => if s.hasRepo then s else { s with hasRepo := true }
  | .pull => { s with pulls := s.pulls + 1 }
  | .diff => s
  | .stage => { s with staged := getChangedFiles env }
  | .commit => { s with commits := s.commits + 1 }
  | .push => { s with pushes := s.pushes + 1 }

/-- State effect of one completed step of the simple-git pipeline. -/
def stepEffectSimple (env : SimpleEnv) (st : Step) (s : RepoState) : RepoState :=
  match st with
  | .initRepo => if s.hasRepo then s else { s with hasRepo := true }
  | .pull => { s with pulls := s.pulls + 1 }
  | .diff => s
  | .stage => { s with staged := env.workingChanged }
  | .commit => { s with commits := s.commits + 1 }
  | .push => { s with pushes := s.pushes + 1 }

/-- Replay a list of completed steps of the isomorphic-git pipeline. -/
def runStepsIso (env : GitEnv) (s0 : RepoState) (steps : List Step) : RepoState :=
  steps.foldl (fun s st => stepEffectIso env st s) s0

/-- Replay a list of completed steps of the simple-git pipeline. -/
def runStepsSimple (env : SimpleEnv) (s0 : RepoState) (steps : List Step) :
    RepoState :=
  steps.foldl (fun s st => stepEffectSimple env st s) s0

/- ### Repository status (gitManager.ts lines 266-307) -/

/-- The named refs of a repository: ref name to the commit ids reachable from
it, tip first.  Git ref names cannot contain `..`. -/
structure RefStore where
  refs : List (String × List String)
deriving DecidableEq, Repr

/-- isomorphic-git `git.log`: resolves `ref` as a named ref and walks its
history.  isomorphic-git has no `A..B` range syntax, so a ref string that is
not a stored name fails with a resolution error. -/
def isoLog (r : RefStore) (ref : String) : Except String (List String) :=
  match r.refs.lookup ref with
  | some cs => .ok cs
  | none => .error "Could not resolve reference"

/-- `git.log(...).then(commits => commits.length).catch(() => 0)` as used by
`getStatus` (lines 283-294). -/
def logLengthOrZero (r : RefStore) (ref : String) : Nat :=
  match isoLog r ref with
  | .ok cs => cs.length
  | .error _ => 0

/-- The `(ahead, behind)` pair `GitManager.getStatus` computes (lines
283-294): the `ahead` component queries the ref string
`branch ++ "..origin/" ++ branch`, the `behind` component queries
`"origin/" ++ branch ++ ".." ++ branch`, each falling back to 0 on failure. -/
def getStatusAheadBehind (r : RefStore) (branch : String) : Nat × Nat :=
  (logLengthOrZero r (branch ++ "..origin/" ++ branch),
   logLengthOrZero r ("origin/" ++ branch ++ ".." ++ branch))

/-- Follows the spec's words (comparison definition for C6): `ahead` counts
the commits reachable only from the local branch, i.e. present in the local
branch's history but not in `origin/<branch>`'s. -/
def specAheadCount (r : RefStore) (branch : String) : Nat :=
  (((r.refs.lookup branch).getD []).filter
    (fun c => !((r.refs.lookup ("origin/" ++ branch)).getD []).contains c)).length

/- ### Concrete inputs used in the claim analyses -/

/-- A baseline repository state: repository present, nothing staged, no sync
activity recorded yet. -/
def baseState : RepoState :=
  { hasRepo := true, pulls := 0, staged := [], commits := 0, pushes := 0 }

/-- Simple-git environment of a fully healthy sync over a clean working tree
(empty ChangeSet). -/
def cleanSimpleEnv : SimpleEnv :=
  { cloneOk := true, pullOk := true, addOk := true, commitOk := true,
    pushOk := true, workingChanged := [] }

/-- Simple-git environment of a fully healthy sync with one changed file. -/
def dirtySimpleEnv : SimpleEnv :=
  { cloneOk := true, pullOk := true, addOk := true, commitOk := true,
    pushOk := true, workingChanged := ["notes.md"] }

/-- Isomorphic-git environment of a fully healthy sync over a clean working
tree (empty status matrix). -/
def cleanIsoEnv : GitEnv :=
  { cloneOk := true, pullOk := true, statusMatrix := [], addOk := true,
    commitOk := true, pushOk := true }

/-- A repository whose local main is one commit ahead of origin/main. -/
def aheadRefs : RefStore :=
  ⟨[("main", ["c2", "c1"]), ("origin/main", ["c1"])]⟩

/-- A /proxy request matching the spec round-trip scenario. -/
def scenarioReq : ProxyReq :=
  { method := "GET"
    urlParam := some "https://host/path?q=1"
    headers := [("x-git-username", "user"), ("x-git-password", "secret")] }

/-- A /proxy request without a url query parameter. -/
def noUrlReq : ProxyReq := { method := "GET", urlParam := none, headers := [] }

/-- A constant upstream answering 200 ok. -/
def okUpstream : UpstreamRequest → HttpResponse :=
  fun _ => { status := 200, body := "ok" }

/-- Concrete credentials used in witnesses. -/
def aliceCreds : GitCredentials :=
  { username := "alice", password := "s3cret"
    author := { name := "Alice", email := "alice@example.com" } }

/-- A second, different set of concrete credentials. -/
def bobCreds : GitCredentials :=
  { username := "bob", password := "hunter2"
    author := { name := "Bob", email := "bob@example.com" } }

/-- Concrete engine-level request config used in witnesses (it carries no
credential headers of its own). -/
def repoConfig : HttpConfig :=
  { url := "https://host/repo.git/info/refs?service=git-upload-pack"
    method := "GET", headers := [] }

/- ### Helper lemmas about the substring machinery -/

theorem isPrefixOf_cons_cons (a b : Char) (as bs : List Char) :
    (a :: as).isPrefixOf (b :: bs) = (a == b && as.isPrefixOf bs) := rfl

theorem nil_isPrefixOf (l : List Char) : List.isPrefixOf [] l = true := by
  cases l <;> rfl

theorem isPrefixOf_append_self (l t : List Char) : l.isPrefixOf (l ++ t) = true := by
  induction l with
  | nil => exact nil_isPrefixOf _
  | cons c cs ih => rw [List.cons_append, isPrefixOf_cons_cons, ih, beq_self_eq_true]; rfl

theorem repFirst_append_self (pat rep t : List Char) (hpat : pat ≠ []) :
    repFirst pat rep (pat ++ t) = rep ++ t := by
  cases pat with
  | nil => exact absurd rfl hpat
  | cons p ps =>
    have hg : (p :: ps).isPrefixOf (p :: (ps ++ t)) = true :=
      isPrefixOf_append_self (p :: ps) t
    show repFirst (p :: ps) rep (p :: (ps ++ t)) = rep ++ t
    rw [repFirst, if_pos hg]
    rw [show (p :: (ps ++ t)) = (p :: ps) ++ t from rfl]
    rw [List.drop_left]

theorem containsSub_append_disjoint (pat rep t : List Char) (hpat : pat ≠ [])
    (hdisj : ∀ c ∈ rep, c ∉ pat) :
    containsSub pat (rep ++ t) = containsSub pat t := by
  induction rep with
  | nil => rfl
  | cons r rs ih =>
    have hr : r ∉ pat := hdisj r (List.mem_cons_self r rs)
    have hpre : pat.isPrefixOf (r :: (rs ++ t)) = false := by
      cases pat with
      | nil => exact absurd rfl hpat
      | cons p ps =>
        have hne : (p == r) = false := by
          apply beq_eq_false_iff_ne.mpr
          intro h
          exact hr (h ▸ List.mem_cons_self p ps)
        rw [isPrefixOf_cons_cons, hne, Bool.false_and]
    rw [List.cons_append]
    rw [show containsSub pat (r :: (rs ++ t)) =
          (pat.isPrefixOf (r :: (rs ++ t)) || containsSub pat (rs ++ t)) from rfl]
    rw [hpre, Bool.false_or]
    exact ih fun c hc => hdisj c (List.mem_cons_of_mem r hc)

theorem countSub_drop_le (pat : List Char) : ∀ (n : Nat) (l : List Char),
    countSub pat (l.drop n) ≤ countSub pat l := by
  intro n
  induction n with
  | zero => intro l; simp
  | succ m ih =>
    intro l
    cases l with
    | nil => simp
    | cons c cs =>
      rw [List.drop_succ_cons]
      calc countSub pat (cs.drop m) ≤ countSub pat cs := ih cs
        _ ≤ countSub pat (c :: cs) := by rw [countSub]; exact Nat.le_add_left _ _

theorem containsSub_false_of_countSub_zero (pat : List Char) (hpat : pat ≠ []) :
    ∀ l : List Char, countSub pat l = 0 → containsSub pat l = false := by
  intro l
  induction l with
  | nil =>
    intro _
    cases pat with
    | nil => exact absurd rfl hpat
    | cons p ps => rfl
  | cons c cs ih =>
    intro h
    rw [countSub] at h
    by_cases hp : pat.isPrefixOf (c :: cs) = true
    · rw [if_pos hp] at h; omega
    · have hf : pat.isPrefixOf (c :: cs) = false := by
        simp only [Bool.not_eq_true] at hp; exact hp
      rw [if_neg hp] at h
      rw [show containsSub pat (c :: cs) =
            (pat.isPrefixOf (c :: cs) || containsSub pat cs) from rfl]
      rw [hf, Bool.false_or]
      exact ih (by omega)

theorem isPrefixOf_of_repFirst (pat rep : List Char) (hrep : rep ≠ [])
    (hdisj : ∀ c ∈ rep, c ∉ pat) :
    ∀ (cs q : List Char), q ≠ [] → (∀ c ∈ q, c ∈ pat) →
      q.isPrefixOf (repFirst pat rep cs) = true → q.isPrefixOf cs = true := by
  intro cs
  induction cs with
  | nil =>
    intro q hq hqpat hpre
    cases q with
    | nil => exact absurd rfl hq
    | cons a as =>
      rw [repFirst] at hpre
      by_cases hp : pat.isEmpty = true
      · have hnil : pat = [] := by
          cases pat with
          | nil => rfl
          | cons x xs => simp [List.isEmpty] at hp
        exact absurd (hnil ▸ hqpat a (List.mem_cons_self a as)) (by simp)
      · rw [if_neg hp] at hpre
        exact absurd hpre (by rw [show (a :: as).isPrefixOf ([] : List Char) = false from rfl]; simp)
  | cons c cs' ih =>
    intro q hq hqpat hpre
    by_cases hm : pat.isPrefixOf (c :: cs') = true
    · rw [repFirst, if_pos hm] at hpre
      cases q with
      | nil => exact absurd rfl hq
      | cons a as =>
        cases rep with
        | nil => exact absurd rfl hrep
        | cons r rs =>
          rw [List.cons_append, isPrefixOf_cons_cons, Bool.and_eq_true, beq_iff_eq] at hpre
          obtain ⟨har, -⟩ := hpre
          exact absurd (har ▸ hqpat a (List.mem_cons_self a as))
            (hdisj r (List.mem_cons_self r rs))
    · rw [repFirst, if_neg hm] at hpre
      cases q with
      | nil => exact absurd rfl hq
      | cons a as =>
        rw [isPrefixOf_cons_cons, Bool.and_eq_true, beq_iff_eq] at hpre
        obtain ⟨hac, htail⟩ := hpre
        rw [isPrefixOf_cons_cons, Bool.and_eq_true, beq_iff_eq]
        by_cases has : as = []
        · subst has
          exact ⟨hac, nil_isPrefixOf _⟩
        · exact ⟨hac, ih as has (fun x hx => hqpat x (List.mem_cons_of_mem a hx)) htail⟩

theorem repFirst_no_remaining (pat rep : List Char) (hpat : pat ≠ []) (hrep : rep ≠ [])
    (hdisj : ∀ c ∈ rep, c ∉ pat) :
    ∀ tpl : List Char, countSub pat tpl ≤ 1 →
      containsSub pat (repFirst pat rep tpl) = false := by
  intro tpl
  induction tpl with
  | nil =>
    intro _
    cases pat with
    | nil => exact absurd rfl hpat
    | cons p ps => simp [repFirst, List.isEmpty, containsSub]
  | cons c cs ih =>
    intro honce
    by_cases hm : pat.isPrefixOf (c :: cs) = true
    · rw [repFirst, if_pos hm]
      rw [containsSub_append_disjoint pat rep _ hpat hdisj]
      have h1 : countSub pat (c :: cs) = 1 + countSub pat cs := by
        rw [countSub, if_pos hm]
      have h2 : countSub pat cs = 0 := by omega
      have h3 : countSub pat ((c :: cs).drop pat.length) = 0 := by
        cases pat with
        | nil => exact absurd rfl hpat
        | cons p ps =>
          rw [List.length_cons, List.drop_succ_cons]
          have := countSub_drop_le (p :: ps) ps.length cs
          omega
      exact containsSub_false_of_countSub_zero pat hpat _ h3
    · rw [repFirst, if_neg hm]
      have honce' : countSub pat cs ≤ 1 := by
        rw [countSub, if_neg hm] at honce; omega
      have htail : containsSub pat (repFirst pat rep cs) = false := ih honce'
      have hhead : pat.isPrefixOf (c :: repFirst pat rep cs) = false := by
        by_contra hcon
        simp only [Bool.not_eq_false] at hcon
        cases pat with
        | nil => exact absurd rfl hpat
        | cons p ps =>
          rw [isPrefixOf_cons_cons, Bool.and_eq_true, beq_iff_eq] at hcon
          obtain ⟨hpc, hps⟩ := hcon
          by_cases hps0 : ps = []
          · subst hps0
            apply hm
            rw [isPrefixOf_cons_cons, Bool.and_eq_true, beq_iff_eq]
            exact ⟨hpc, nil_isPrefixOf _⟩
          · have hstep := isPrefixOf_of_repFirst (p :: ps) rep hrep hdisj cs ps hps0
              (fun x hx => List.mem_cons_of_mem p hx) hps
            apply hm
            rw [isPrefixOf_cons_cons, Bool.and_eq_true, beq_iff_eq]
            exact ⟨hpc, hstep⟩
      rw [show containsSub pat (c :: repFirst pat rep cs) =
            (pat.isPrefixOf (c :: repFirst pat rep cs) ||
              containsSub pat (repFirst pat rep cs)) from rfl]
      rw [hhead, htail]
      rfl

/- ### Claim C1: empty ChangeSet short circuit -/

/-- C1 counterexample: a simple-git engine sync call over a clean working
tree — the computed ChangeSet is empty — does not short-circuit: the stage
step runs and the reported outcome is a failure, not the no-changes
outcome. -/
theorem C1_counterexample :
    cleanSimpleEnv.workingChanged = [] ∧
    ¬ ((syncSimple cleanSimpleEnv baseState).outcome = SyncOutcome.noChanges ∧
       Step.stage ∉ (syncSimple cleanSimpleEnv baseState).completed) := by
  decide

/-- C1 (amended): in the isomorphic-git engine, a sync call that reaches the
diff step and computes an empty ChangeSet creates no commit and skips the
stage, commit and push steps, reporting the no-changes outcome; the
simple-git engine's sync lacks this short circuit and unconditionally stages
and attempts a commit. -/
theorem C1_amended (env : GitEnv) (s0 : RepoState)
    (hinit : s0.hasRepo = true ∨ env.cloneOk = true)
    (hpull : env.pullOk = true)
    (hempty : getChangedFiles env = []) :
    (syncIso env s0).outcome = SyncOutcome.noChanges ∧
    (syncIso env s0).state.commits = s0.commits ∧
    (syncIso env s0).completed = [Step.initRepo, Step.pull, Step.diff] := by
  have hlen : ¬ (getChangedFiles env).length > 0 := by rw [hempty]; simp
  rcases hinit with h | h
  · simp [syncIso, initializeRepo, pullOp, h, hpull, hlen]
  · by_cases hr : s0.hasRepo
    · simp [syncIso, initializeRepo, pullOp, hr, hpull, hlen]
    · simp [syncIso, initializeRepo, pullOp, hr, h, hpull, hlen]

/-- C1 witness: the amended claim at a concrete healthy environment with an
empty status matrix. -/
theorem C1_amended_witness :
    (syncIso cleanIsoEnv baseState).outcome = SyncOutcome.noChanges ∧
    (syncIso cleanIsoEnv baseState).state.commits = baseState.commits ∧
    (syncIso cleanIsoEnv baseState).completed =
      [Step.initRepo, Step.pull, Step.diff] :=
  C1_amended cleanIsoEnv baseState (Or.inl rfl) rfl rfl

/- ### Claim C2: step order, abort on failure, no rollback -/

/-- C2 counterexample: a simple-git engine sync performs the stage step
without any diff step ever executing, refuting the fixed six-step order
initialize, pull, diff, stage, commit, push. -/
theorem C2_counterexample :
    Step.stage ∈ (syncSimple dirtySimpleEnv baseState).completed ∧
    Step.diff ∉ (syncSimple dirtySimpleEnv baseState).completed := by
  decide

set_option maxHeartbeats 2000000 in
/-- C2 (amended): the isomorphic-git sync always completes a prefix of
(initialize, pull, diff, stage, commit, push) and the simple-git sync a
prefix of (initialize, pull, stage, commit, push) — the latter has no diff
step; in both engines a step's failure aborts all remaining steps, completed
steps are never rolled back, and the final repository state is exactly the
replay of the completed prefix from the initial state. -/
theorem C2_amended (genv : GitEnv) (senv : SimpleEnv) (s0 t0 : RepoState) :
    ((syncIso genv s0).completed =
       stepOrderIso.take (syncIso genv s0).completed.length ∧
     (syncIso genv s0).state = runStepsIso genv s0 (syncIso genv s0).completed) ∧
    ((syncSimple senv t0).completed =
       stepOrderSimple.take (syncSimple senv t0).completed.length ∧
     (syncSimple senv t0).state = runStepsSimple senv t0 (syncSimple senv t0).completed ∧
     Step.diff ∉ (syncSimple senv t0).completed) := by
  constructor
  · by_cases h1 : s0.hasRepo <;> by_cases h2 : genv.cloneOk <;>
      by_cases h3 : genv.pullOk <;> by_cases h4 : (getChangedFiles genv).length > 0 <;>
      by_cases h5 : genv.addOk <;> by_cases h6 : genv.commitOk <;>
      by_cases h7 : genv.pushOk <;>
      simp [syncIso, initializeRepo, pullOp, addAllOp, commitOp, pushOp,
        stepOrderIso, runStepsIso, stepEffectIso, List.foldl_cons, List.foldl_nil,
        h1, h2, h3, h4, h5, h6, h7]
  · by_cases h1 : t0.hasRepo <;> by_cases h2 : senv.cloneOk <;>
      by_cases h3 : senv.pullOk <;> by_cases h4 : senv.addOk <;>
      by_cases h5 : senv.workingChanged.isEmpty <;> by_cases h6 : senv.commitOk <;>
      by_cases h7 : senv.pushOk <;>
      simp [syncSimple, initializeRepoSimple, pullSimple, addAllSimple, commitSimple,
        pushSimple, stepOrderSimple, runStepsSimple, stepEffectSimple,
        List.foldl_cons, List.foldl_nil, h1, h2, h3, h4, h5, h6, h7]

/- ### Claim C3: secrets in log lines -/

/-- C3: evaluation at the failing input — the simple-git engine's
testConnection logs the credential-embedded remote URL, so the plaintext
secret appears in a log line produced by the program, contradicting the
claim that no log line contains the secret. -/
theorem C3_secret_in_log :
    ((testConnectionLogs "https://github.com/u/r.git" "alice" "hunter2").any
      (fun line => strContains line "hunter2")) = true := by
  decide

/- ### Claim C5: missing or unparsable url parameter -/

/-- C5 counterexample: a /proxy request without the url query parameter is
answered with status 500, not the claimed 400. -/
theorem C5_counterexample :
    (proxyRoundTrip noUrlReq okUpstream).status = 500 ∧
    (proxyRoundTrip noUrlReq okUpstream).status ≠ 400 := by
  decide

/-- C5 (amended): for every request whose url query parameter is absent or
not a parsable URL, the proxy responds with status 500 (the onError
handler's writeHead), not 400. -/
theorem C5_amended (r : ProxyReq) (f : UpstreamRequest → HttpResponse)
    (h : r.urlParam.bind parseUrl = none) :
    (proxyRoundTrip r f).status = 500 := by
  cases hu : r.urlParam with
  | none => simp [proxyRoundTrip, proxyBuildUpstream, hu]
  | some u =>
    rw [hu] at h
    simp only [Option.bind] at h
    simp [proxyRoundTrip, proxyBuildUpstream, hu, h]

/-- C5 witness: the amended claim at the concrete request with no url
parameter. -/
theorem C5_amended_witness :
    (proxyRoundTrip noUrlReq okUpstream).status = 500 :=
  C5_amended noUrlReq okUpstream rfl

/- ### Claim C6: ahead and behind counts -/

/-- C6: evaluation at the failing input — with local main one commit ahead
of origin/main, getStatus computes (0, 0): the range strings it hands to the
log call are not resolvable refs, and every failure is mapped to 0; the
spec's ahead count at the same repository is 1. -/
theorem C6_status_zero :
    getStatusAheadBehind aheadRefs "main" = (0, 0) ∧
    specAheadCount aheadRefs "main" = 1 := by
  decide

/- ### Claim C8: placeholder author identity -/

/-- C8 counterexample: with author name and email unset the commit identity
is not "Sync Bot <sync@local>". -/
theorem C8_counterexample :
    commitAuthor { name := "", email := "" } ≠
      { name := "Sync Bot", email := "sync@local" } := by
  decide

/-- C8 (amended): for every commit performed when the configured author name
and email are unset, the commit is created with the placeholder identity
"Obsidian Git Sync <obsidian@example.com>", so a zero-config first run still
succeeds. -/
theorem C8_amended (a : Author) (hn : a.name = "") (he : a.email = "") :
    commitAuthor a =
      { name := "Obsidian Git Sync", email := "obsidian@example.com" } := by
  simp [commitAuthor, jsOrDefault, hn, he]

/-- C8 witness: the amended claim at the fully unset identity. -/
theorem C8_amended_witness :
    commitAuthor { name := "", email := "" } =
      { name := "Obsidian Git Sync", email := "obsidian@example.com" } :=
  C8_amended { name := "", email := "" } rfl rfl

/- ### Header lookup lemmas -/

theorem lookupHeader_setHeader_same (n v : String) (hs : List (String × String)) :
    lookupHeader n (setHeader n v hs) = some v := by
  simp [lookupHeader, setHeader, List.lookup]

theorem lookup_gitclient_username (creds : GitCredentials) (config : HttpConfig) :
    lookupHeader "X-Git-Username" (gitHttpClientRequest creds config).headers =
      some creds.username := by
  have e1 : (("X-Git-Password" : String) == "X-Git-Username") = false := by decide
  have e2 : (decide (("X-Git-Username" : String) ≠ "X-Git-Password")) = true := by decide
  simp [gitHttpClientRequest, setHeader, lookupHeader, List.lookup, List.filter, e1, e2]

theorem lookup_gitclient_password (creds : GitCredentials) (config : HttpConfig) :
    lookupHeader "X-Git-Password" (gitHttpClientRequest creds config).headers =
      some creds.password :=
  lookupHeader_setHeader_same _ _ _

/- ### Claim C4: proxy round trip -/

/-- C4: for every /proxy request whose url parameter parses, the upstream
request goes to the target's scheme+host with the path rewritten to exactly
the target's path and query; with both credential headers present (carrying
nonempty credentials) it bears Authorization: Basic base64(username:secret);
with either header absent or empty the headers pass through untouched; and
the upstream response is relayed unchanged. -/
theorem C4_proxy_roundtrip (r : ProxyReq) (u : String) (t : ParsedUrl)
    (hu : r.urlParam = some u) (ht : parseUrl u = some t) :
    ∃ ur, proxyBuildUpstream r = some ur ∧
      ur.target = t.protocol ++ "//" ++ t.host ∧
      ur.path = t.pathname ++ t.search ∧
      (∀ f : UpstreamRequest → HttpResponse, proxyRoundTrip r f = f ur) ∧
      (∀ user pass : String,
        lookupHeader "x-git-username" r.headers = some user → user ≠ "" →
        lookupHeader "x-git-password" r.headers = some pass → pass ≠ "" →
        lookupHeader "authorization" ur.headers =
          some ("Basic " ++ base64OfString (user ++ ":" ++ pass))) ∧
      ((headerTruthy (lookupHeader "x-git-username" r.headers) = false ∨
        headerTruthy (lookupHeader "x-git-password" r.headers) = false) →
        ur.headers = r.headers) := by
  have hbuild : proxyBuildUpstream r =
      some ⟨t.protocol ++ "//" ++ t.host, t.pathname ++ t.search,
            onProxyReqHeaders r.headers, r.method⟩ := by
    simp [proxyBuildUpstream, hu, ht]
  refine ⟨_, hbuild, rfl, rfl, ?_, ?_, ?_⟩
  · intro f
    simp [proxyRoundTrip, hbuild]
  · intro user pass hU hUne hP hPne
    have hEU : (user == "") = false := beq_eq_false_iff_ne.mpr hUne
    have hEP : (pass == "") = false := beq_eq_false_iff_ne.mpr hPne
    show lookupHeader "authorization" (onProxyReqHeaders r.headers) = _
    rw [onProxyReqHeaders, if_pos (by rw [hU, hP]; simp [headerTruthy, hEU, hEP])]
    rw [lookupHeader_setHeader_same, hU, hP]
    rfl
  · intro hor
    have hc : (headerTruthy (lookupHeader "x-git-username" r.headers) &&
        headerTruthy (lookupHeader "x-git-password" r.headers)) = false := by
      rcases hor with h | h
      · rw [h, Bool.false_and]
      · rw [h, Bool.and_false]
    show onProxyReqHeaders r.headers = r.headers
    simp [onProxyReqHeaders, hc]

/-- C4 witness: the spec round-trip scenario — target https://host/path?q=1
with credential headers user and secret. -/
theorem C4_witness :
    ∃ ur, proxyBuildUpstream scenarioReq = some ur ∧
      ur.target = "https:" ++ "//" ++ "host" ∧
      ur.path = "/path" ++ "?q=1" ∧
      (∀ f : UpstreamRequest → HttpResponse, proxyRoundTrip scenarioReq f = f ur) ∧
      (∀ user pass : String,
        lookupHeader "x-git-username" scenarioReq.headers = some user → user ≠ "" →
        lookupHeader "x-git-password" scenarioReq.headers = some pass → pass ≠ "" →
        lookupHeader "authorization" ur.headers =
          some ("Basic " ++ base64OfString (user ++ ":" ++ pass))) ∧
      ((headerTruthy (lookupHeader "x-git-username" scenarioReq.headers) = false ∨
        headerTruthy (lookupHeader "x-git-password" scenarioReq.headers) = false) →
        ur.headers = scenarioReq.headers) :=
  C4_proxy_roundtrip scenarioReq "https://host/path?q=1"
    ⟨"https:", "host", "/path", "?q=1"⟩ rfl (by decide)

/- ### Claim C7: date placeholder substitution -/

/-- C7 counterexample: with a template containing the date placeholder
twice, the formatted commit message still contains the placeholder —
JavaScript String.replace with a string pattern replaces only the first
occurrence. -/
theorem C7_counterexample :
    strContains (formatCommitMessage "\x7b\x7bdate\x7d\x7d \x7b\x7bdate\x7d\x7d"
      "2025-01-15") "\x7b\x7bdate\x7d\x7d" = true := by
  decide

/-- C7 (amended): only the first occurrence of the date placeholder is
replaced.  When the template contains the placeholder at most once and the
timestamp is nonempty, shares no character with the placeholder and contains
no dollar sign (toLocaleString output satisfies all three), the final commit
message contains no remaining placeholder token. -/
theorem C7_amended (template ts : String)
    (hne : ts.data ≠ [])
    (hdisj : ∀ c ∈ ts.data, c ∉ ("\x7b\x7bdate\x7d\x7d" : String).data)
    (_hdollar : '$' ∉ ts.data)
    (honce : countSub ("\x7b\x7bdate\x7d\x7d" : String).data template.data ≤ 1) :
    strContains (formatCommitMessage template ts) "\x7b\x7bdate\x7d\x7d" = false :=
  repFirst_no_remaining ("\x7b\x7bdate\x7d\x7d" : String).data ts.data
    (by decide) hne hdisj template.data honce

/-- C7 witness: the default template with a concrete toLocaleString-style
timestamp leaves no placeholder in the commit message. -/
theorem C7_amended_witness :
    strContains (formatCommitMessage "Vault backup: \x7b\x7bdate\x7d\x7d"
      "1/15/2025, 3:04:05 PM") "\x7b\x7bdate\x7d\x7d" = false :=
  C7_amended "Vault backup: \x7b\x7bdate\x7d\x7d" "1/15/2025, 3:04:05 PM"
    (by decide) (by decide) (by decide) (by decide)

/- ### Claim C9: credentials out-of-band -/

/-- C9 counterexample: during a simple-git engine sync, the outbound clone
(and listRemote) target URL embeds the plaintext secret, refuting the claim
that credentials are never embedded in a request URL. -/
theorem C9_counterexample :
    strContains (remoteWithAuth "https://github.com/u/r.git" "alice" "s3cret")
      "s3cret" = true := by
  decide

/-- C9 (amended): in the isomorphic-git engine every outbound request
carries the credentials only in the custom X-Git headers — the proxied URL
is a function of the target URL alone, identical for any two credential
sets; the simple-git engine instead embeds username:password directly into
the https remote URL it hands to clone and listRemote.  (The dollar-freedom
hypotheses record that JavaScript replacement-pattern substitution is not in
play.) -/
theorem C9_amended (creds creds2 : GitCredentials) (config : HttpConfig)
    (user pass rest : String)
    (_hd1 : '$' ∉ user.data) (_hd2 : '$' ∉ pass.data) :
    (gitHttpClientRequest creds config).url = (gitHttpClientRequest creds2 config).url ∧
    (gitHttpClientRequest creds config).url =
      proxyUrlPrefix ++ encodeURIComponent config.url ∧
    lookupHeader "X-Git-Username" (gitHttpClientRequest creds config).headers =
      some creds.username ∧
    lookupHeader "X-Git-Password" (gitHttpClientRequest creds config).headers =
      some creds.password ∧
    remoteWithAuth ("https://" ++ rest) user pass =
      "https://" ++ user ++ ":" ++ pass ++ "@" ++ rest := by
  refine ⟨rfl, rfl, lookup_gitclient_username creds config,
    lookup_gitclient_password creds config, ?_⟩
  have key := repFirst_append_self ("https://" : String).data
      ("https://" ++ user ++ ":" ++ pass ++ "@").data rest.data (by decide)
  exact congrArg String.mk key

/-- C9 witness: the amended claim at concrete credentials, request config
and remote URL. -/
theorem C9_amended_witness :
    (gitHttpClientRequest aliceCreds repoConfig).url =
      (gitHttpClientRequest bobCreds repoConfig).url ∧
    (gitHttpClientRequest aliceCreds repoConfig).url =
      proxyUrlPrefix ++ encodeURIComponent repoConfig.url ∧
    lookupHeader "X-Git-Username" (gitHttpClientRequest aliceCreds repoConfig).headers =
      some aliceCreds.username ∧
    lookupHeader "X-Git-Password" (gitHttpClientRequest aliceCreds repoConfig).headers =
      some aliceCreds.password ∧
    remoteWithAuth ("https://" ++ "github.com/u/r.git") "alice" "s3cret" =
      "https://" ++ "alice" ++ ":" ++ "s3cret" ++ "@" ++ "github.com/u/r.git" :=
  C9_amended aliceCreds bobCreds repoConfig "alice" "s3cret" "github.com/u/r.git"
    (by decide) (by decide)

/- ### Claim C10: per-operation HTTP client routing -/

/-- C10: in the isomorphic-git engine, clone and push go through the
proxying client — their outbound URL is the proxy endpoint with the target
encoded into the url query parameter and the credential headers attached —
while pull goes through the direct client: its request goes straight to the
configured URL and no credential headers are added. -/
theorem C10_client_routing (creds : GitCredentials) (config : HttpConfig)
    (h1 : lookupHeader "X-Git-Username" config.headers = none)
    (h2 : lookupHeader "X-Git-Password" config.headers = none) :
    cloneHttpClient = HttpClientKind.proxied ∧
    pushHttpClient = HttpClientKind.proxied ∧
    pullHttpClient = HttpClientKind.direct ∧
    (clientRequest cloneHttpClient creds config).url =
      proxyUrlPrefix ++ encodeURIComponent config.url ∧
    lookupHeader "X-Git-Username" (clientRequest cloneHttpClient creds config).headers =
      some creds.username ∧
    lookupHeader "X-Git-Password" (clientRequest pushHttpClient creds config).headers =
      some creds.password ∧
    (clientRequest pullHttpClient creds config).url = config.url ∧
    lookupHeader "X-Git-Username" (clientRequest pullHttpClient creds config).headers =
      none ∧
    lookupHeader "X-Git-Password" (clientRequest pullHttpClient creds config).headers =
      none :=
  ⟨rfl, rfl, rfl, rfl, lookup_gitclient_username creds config,
    lookup_gitclient_password creds config, rfl, h1, h2⟩

/-- C10 witness: the routing facts at concrete credentials and request
config carrying no credential headers of its own. -/
theorem C10_witness :
    cloneHttpClient = HttpClientKind.proxied ∧
    pushHttpClient = HttpClientKind.proxied ∧
    pullHttpClient = HttpClientKind.direct ∧
    (clientRequest cloneHttpClient aliceCreds repoConfig).url =
      proxyUrlPrefix ++ encodeURIComponent repoConfig.url ∧
    lookupHeader "X-Git-Username" (clientRequest cloneHttpClient aliceCreds repoConfig).headers =
      some aliceCreds.username ∧
    lookupHeader "X-Git-Password" (clientRequest pushHttpClient aliceCreds repoConfig).headers =
      some aliceCreds.password ∧
    (clientRequest pullHttpClient aliceCreds repoConfig).url = repoConfig.url ∧
    lookupHeader "X-Git-Username" (clientRequest pullHttpClient aliceCreds repoConfig).headers =
      none ∧
    lookupHeader "X-Git-Password" (clientRequest pullHttpClient aliceCreds repoConfig).headers =
      none :=
  C10_client_routing aliceCreds repoConfig rfl rfl

end GitSync
